import Mathlib

/-!
Verification of the Hemingway Search Engine backend
(`Backend/search-engine-flask/index.py`).

Text is modelled as `List Char`; Python strings are embedded via
`String.toList`.  Each definition below is a shallow embedding of the
corresponding Python function, keeping the source's names where Lean
allows it.  File I/O is modelled by an explicit `WriteOutcome` input that
says how the underlying `open`/`write` call would have behaved.
-/

namespace Hemingway

/-- Text as a list of characters (a Python `str`). -/
abbrev Str := List Char

/-- Python `\w` (ASCII fragment): letters, digits and underscore. -/
def isWordChar (c : Char) : Bool :=
  c.isAlpha || c.isDigit || c == '_'

/-- The five terminal punctuation marks of the tokenizer character class
`[\.,!?;]` in `load_corpus`. -/
def isTermPunct (c : Char) : Bool :=
  c == '.' || c == ',' || c == '!' || c == '?' || c == ';'

/-- Python `\s` (ASCII fragment): space, tab, newline, carriage return,
vertical tab, form feed. -/
def isPySpace (c : Char) : Bool :=
  c == ' ' || c == '\t' || c == '\n' || c == '\r' || c == '\x0b' || c == '\x0c'

/-- Emit the pending run of word characters (accumulated in reverse)
as a token, or nothing when the run is empty. -/
def flushRun (acc : Str) : List Str :=
  if acc.isEmpty then [] else [acc.reverse]

/-- Worker for the tokenizer: `acc` holds the current (reversed) run of
word characters. -/
def tokenizeGo (acc : Str) : Str → List Str
  | [] => flushRun acc
  | c :: cs =>
    if isWordChar c then
      tokenizeGo (c :: acc) cs
    else if isTermPunct c then
      flushRun acc ++ [c] :: tokenizeGo [] cs
    else
      flushRun acc ++ tokenizeGo [] cs

/-- The tokenizer of `load_corpus`:
`re.findall(r'\b\w+\b|[\.,!?;]', corpus_text)`.
Scanning left to right it emits each maximal run of word characters and
each single terminal punctuation character, discarding everything else. -/
def tokenize (text : Str) : List Str :=
  tokenizeGo [] text

/-- `load_corpus` (the part after reading the file): tokenize the raw
corpus text into the word list. -/
def load_corpus (corpus_text : Str) : List Str :=
  tokenize corpus_text

/-- Is the first character of the remaining input a whitespace character?
(`false` at end of input). -/
def headIsSpace : Str → Bool
  | [] => false
  | d :: _ => isPySpace d

/-- Scanner for `re.split(r'(?<=[.!?])\s+', text)`.
In mode `false` we are inside a sentence accumulated (reversed) in `cur`;
when a terminal mark is immediately followed by whitespace the sentence
(mark included) is emitted and mode `true` consumes the maximal
whitespace run, after which the next sentence begins. -/
def splitSentGo : Bool → Str → Str → List Str
  | _, cur, [] => [cur.reverse]
  | false, cur, c :: cs =>
    if (c == '.' || c == '!' || c == '?') && headIsSpace cs then
      (c :: cur).reverse :: splitSentGo true [] cs
    else
      splitSentGo false (c :: cur) cs
  | true, cur, c :: cs =>
    if isPySpace c then
      splitSentGo true cur cs
    else if (c == '.' || c == '!' || c == '?') && headIsSpace cs then
      [c] :: splitSentGo true [] cs
    else
      splitSentGo false [c] cs

/-- The sentence segmenter of `find_matching_sentences_for_word`:
`sentences = re.split(r'(?<=[.!?])\s+', hemingway)`. -/
def splitSentences (text : Str) : List Str :=
  splitSentGo false [] text

/-- Python `str.lower` (ASCII fragment). -/
def lowerStr (s : Str) : Str :=
  s.map Char.toLower

/-- Does `w` occur as a substring of `s` starting at offset `i`? -/
def substrAt (s w : Str) (i : Nat) : Bool :=
  (s.drop i).take w.length == w

/-- Offset of the first occurrence of `w` as a substring of `s`
(Python `s.index(w)`), if any. -/
def firstIndex (s w : Str) : Option Nat :=
  (List.range (s.length + 1)).find? (fun i => substrAt s w i)

/-- Is the character at offset `i` of `s` (if any) a word character? -/
def wordCharAt (s : Str) (i : Nat) : Bool :=
  match s.get? i with
  | none => false
  | some c => isWordChar c

/-- Case-insensitive whole-word occurrence of `w` in `s` at offset `i`:
the model of a match of `re.search(rf'\b{w}\b', s, re.IGNORECASE)`
starting at `i`, for a word made of word characters. -/
def wholeWordAt (s w : Str) (i : Nat) : Bool :=
  substrAt (lowerStr s) (lowerStr w) i
    && (i == 0 || !wordCharAt s (i - 1))
    && !wordCharAt s (i + w.length)

/-- Does `re.search(rf'\b{w}\b', s, re.IGNORECASE)` find a match? -/
def hasWholeWordMatch (s w : Str) : Bool :=
  (List.range (s.length + 1)).any (fun i => wholeWordAt s w i)

/-- `validate_input_string`: the input is valid iff it is a non-empty
string whose `strip()` is non-empty (the source returns an error message
exactly when `not input_value or not isinstance(input_value, str) or not
input_value.strip()`); we return `true` for valid. -/
def validate_input_string (w : Str) : Bool :=
  !w.isEmpty && !w.all isPySpace

/-- Python `str.strip()`: drop leading and trailing whitespace. -/
def stripStr (s : Str) : Str :=
  ((s.dropWhile isPySpace).reverse.dropWhile isPySpace).reverse

/-- The context computation inside the sentence loop of
`find_matching_sentences_for_word`: first lowercase-comparison occurrence
index, slice `[max(idx-R,0) : min(idx+len(w)+R, len(s))]`, newlines to
spaces, strip.  (The `none` branch is unreachable for a sentence with a
whole-word match.) -/
def contextOf (R : Nat) (s w : Str) : Str :=
  match firstIndex (lowerStr s) (lowerStr w) with
  | none => []
  | some idx =>
    let context := (s.drop (idx - R)).take (min (idx + w.length + R) s.length - (idx - R))
    stripStr (context.map (fun c => if c == '\n' then ' ' else c))

/-- `find_matching_sentences_for_word`: validate the word (an invalid
word raises `ValueError`, caught by the blanket handler which returns
`[]`), split the corpus text into sentences, and return the context of
every sentence with a case-insensitive whole-word match, in order.
`none` models a missing input (Python `None`). -/
def find_matching_sentences_for_word (R : Nat) (text : Str) (w? : Option Str) : List Str :=
  match w? with
  | none => []
  | some w =>
    if validate_input_string w then
      ((splitSentences text).filter (fun s => hasWholeWordMatch s w)).map
        (fun s => contextOf R s w)
    else []

/-! ## Corpus store and request handlers -/

/-- How the underlying file write behaves when a handler saves the
corpus: it succeeds, raises `FileNotFoundError`, or raises some other
exception. -/
inductive WriteOutcome
  | success
  | fileNotFound
  | otherError
deriving DecidableEq

/-- The write branch of `file_operation`: on success it returns the
string `"write successful"`; a `FileNotFoundError` is re-raised (modelled
as `Except.error`); any other exception is logged and swallowed,
returning the string `"exception occurred"`. -/
def file_operation_write (outcome : WriteOutcome) : Except Unit Str :=
  match outcome with
  | .success => .ok ("write successful".toList)
  | .fileNotFound => .error ()
  | .otherError => .ok ("exception occurred".toList)

/-- `save_corpus`: calls `file_operation` (ignoring its return value) and
returns the word list; only `FileNotFoundError` propagates.  The result
is wrapped in `some` to model the Python return value the handlers
compare against `None` — it is never `none`. -/
def save_corpus (outcome : WriteOutcome) (new_word_list : List Str) :
    Except Unit (Option (List Str)) :=
  match file_operation_write outcome with
  | .error e => .error e
  | .ok _ => .ok (some new_word_list)

/-- The error kinds of `ERROR_MESSAGES` used by `handle_error`. -/
inductive ErrKind
  | invalid_input
  | file_not_found
  | internal_error
  | not_found_in_corpus
deriving DecidableEq

/-- HTTP responses produced by the handlers, with the data each message
interpolates. -/
inductive Resp
  | created (w : Str)                          -- 201, add_word success
  | removedOk (count : Nat) (w : Str)          -- 200, remove success
  | removeNotFound (w : Str)                   -- 404, remove found nothing
  | replacedOk (count : Nat) (oldW newW : Str) -- 200, replace success
  | sentences (ls : List Str)                  -- 200, matching_sentences
  | corpusOk (ls : List Str)                   -- 200, get_corpus
  | similarOk (q : Str) (ws : List Str)        -- 200, similar_words
  | err (k : ErrKind)                          -- handle_error response
deriving DecidableEq

/-- Result of a mutation handler: the in-memory corpus afterwards,
whether `save_corpus` was invoked, and the HTTP response. -/
structure MutResult where
  corpus : List Str
  saveCalled : Bool
  resp : Resp
deriving DecidableEq

/-- `add_word`: validate, append unconditionally, save, and report
success unless the save raised (`FileNotFoundError` is an `IOError`,
mapped to `internal_error`); the `saved_word_list is None` check can
never fire because `save_corpus` never returns `None`. -/
def add_word (corpus : List Str) (new_word? : Option Str) (outcome : WriteOutcome) :
    MutResult :=
  match new_word? with
  | none => ⟨corpus, false, .err .invalid_input⟩
  | some new_word =>
    if validate_input_string new_word then
      let corpus2 := corpus ++ [new_word]
      match save_corpus outcome corpus2 with
      | .error _ => ⟨corpus2, true, .err .internal_error⟩
      | .ok none => ⟨corpus2, true, .err .internal_error⟩
      | .ok (some _) => ⟨corpus2, true, .created new_word⟩
    else ⟨corpus, false, .err .invalid_input⟩

/-- Python `list.remove`: delete the first occurrence of `w`. -/
def removeFirst (w : Str) : List Str → List Str
  | [] => []
  | x :: xs => if x == w then xs else x :: removeFirst w xs

/-- Worker for the
`while target_word in word_list: word_list.remove(target_word)` loop of
`remove_similar_word`.  Each iteration removes one occurrence, so the
length of the list is always enough fuel; the explicit fuel keeps the
loop structurally recursive. -/
def removeLoopFuel (w : Str) : Nat → List Str → List Str × Nat
  | 0, l => (l, 0)
  | fuel + 1, l =>
    if w ∈ l then
      let r := removeLoopFuel w fuel (removeFirst w l)
      (r.1, r.2 + 1)
    else (l, 0)

/-- The removal loop of `remove_similar_word`: run until the target word
no longer occurs, returning the final list and the number of removals. -/
def removeLoop (w : Str) (l : List Str) : List Str × Nat :=
  removeLoopFuel w l.length l

/-- `remove_similar_word`: validate, remove every occurrence of the
exact target word while counting; save and report the count when
anything was removed, otherwise answer 404 without saving. -/
def remove_similar_word (corpus : List Str) (target? : Option Str) (outcome : WriteOutcome) :
    MutResult :=
  match target? with
  | none => ⟨corpus, false, .err .invalid_input⟩
  | some target =>
    if validate_input_string target then
      let r := removeLoop target corpus
      if r.2 > 0 then
        match save_corpus outcome r.1 with
        | .error _ => ⟨r.1, true, .err .internal_error⟩
        | .ok none => ⟨r.1, true, .err .internal_error⟩
        | .ok (some _) => ⟨r.1, true, .removedOk r.2 target⟩
      else ⟨corpus, false, .removeNotFound target⟩
    else ⟨corpus, false, .err .invalid_input⟩

/-- The `for index, word in enumerate(word_list)` loop of
`replace_word`: replace every token equal to `old_word` up to
`str.lower` with `new_word`, counting replacements. -/
def replaceLoop (oldW newW : Str) : List Str → List Str × Nat
  | [] => ([], 0)
  | x :: xs =>
    let r := replaceLoop oldW newW xs
    if lowerStr x == lowerStr oldW then (newW :: r.1, r.2 + 1) else (x :: r.1, r.2)

/-- `replace_word`: validate both words (old first), replace throughout,
then always save; report the count when positive, otherwise the
`not_found_in_corpus` error.  A `FileNotFoundError` escaping
`save_corpus` is caught by the blanket handler as `internal_error`. -/
def replace_word (corpus : List Str) (old_word? new_word? : Option Str)
    (outcome : WriteOutcome) : MutResult :=
  match old_word?, new_word? with
  | none, _ => ⟨corpus, false, .err .invalid_input⟩
  | some _, none => ⟨corpus, false, .err .invalid_input⟩
  | some old_word, some new_word =>
    if validate_input_string old_word then
      if validate_input_string new_word then
        let r := replaceLoop old_word new_word corpus
        match save_corpus outcome r.1 with
        | .error _ => ⟨r.1, true, .err .internal_error⟩
        | .ok _ =>
          if r.2 > 0 then ⟨r.1, true, .replacedOk r.2 old_word new_word⟩
          else ⟨r.1, true, .err .not_found_in_corpus⟩
      else ⟨corpus, false, .err .invalid_input⟩
    else ⟨corpus, false, .err .invalid_input⟩

/-- `get_corpus`: return the in-memory corpus. -/
def get_corpus (corpus : List Str) : Resp :=
  .corpusOk corpus

/-- `get_similar_words` (route `/similar_words`): validate the query
word, then hand it to the external similarity collaborator
`find_most_similar_words` (abstracted as `f`). -/
def get_similar_words (f : Str → List Str) (query_word? : Option Str) : Resp :=
  match query_word? with
  | none => .err .invalid_input
  | some q =>
    if validate_input_string q then .similarOk q (f q)
    else .err .invalid_input

/-- The route `/find_matching_sentences`: no validation of its own; the
shared word function returns `[]` for invalid input (its `ValueError` is
caught there), and the route wraps the list in a 200 response. -/
def find_matching_sentences (R : Nat) (text : Str) (input? : Option Str) : Resp :=
  .sentences (find_matching_sentences_for_word R text input?)

/-- Python `str.split(',')`: split on every comma, keeping empty
pieces. -/
def splitCommaGo (cur : Str) : Str → List Str
  | [] => [cur.reverse]
  | c :: cs =>
    if c == ',' then cur.reverse :: splitCommaGo [] cs
    else splitCommaGo (c :: cur) cs

/-- Python `str.split(',')`. -/
def splitComma (s : Str) : List Str :=
  splitCommaGo [] s

/-- The route `/find_similar_sentences`: take the first three
comma-separated words, look up matching sentences for each in turn and
extend one accumulating list.  A missing parameter raises
`AttributeError` on `None.split`, mapped to `internal_error`. -/
def find_similar_sentences (R : Nat) (text : Str) (similar_words? : Option Str) : Resp :=
  match similar_words? with
  | none => .err .internal_error
  | some p =>
    let similar_words := (splitComma p).take 3
    .sentences (similar_words.foldl
      (fun acc word => acc ++ find_matching_sentences_for_word R text (some word)) [])

/-- An input that fails word validation: a missing field (Python `None`),
or a string rejected by `validate_input_string`. -/
def invalidWordInput : Option Str → Bool
  | none => true
  | some w => !validate_input_string w

/-- The context window exactly as the spec phrases it (§4.3): the
sentence substring from `max(0, idx - R)` to
`min(len(sentence), idx + len(word) + R)` with the offset arithmetic
over the integers, newlines normalized to spaces and the result trimmed,
where `idx` is the offset of the first lowercase-comparison occurrence
of the word.  Stated independently of `contextOf` so that the two can be
compared. -/
def specContextWindow (R : Nat) (s w : Str) : Str :=
  match firstIndex (lowerStr s) (lowerStr w) with
  | none => []
  | some idx =>
    let start := (max 0 ((idx : Int) - (R : Int))).toNat
    let stop := min (idx + w.length + R) s.length
    stripStr (((s.drop start).take (stop - start)).map (fun c => if c == '\n' then ' ' else c))

/-! ## Helper lemmas -/

theorem specContextWindow_eq_contextOf (R : Nat) (s w : Str) :
    specContextWindow R s w = contextOf R s w := by
  rcases hidx : firstIndex (lowerStr s) (lowerStr w) with _ | idx <;>
    simp only [specContextWindow, contextOf, hidx]
  rw [show (max 0 ((idx : Int) - (R : Int))).toNat = idx - R by omega]

theorem removeFirst_length_lt (w : Str) :
    ∀ l : List Str, w ∈ l → (removeFirst w l).length < l.length := by
  intro l hmem
  induction l with
  | nil => cases hmem
  | cons x xs ih =>
    by_cases hx : x = w
    · simp [removeFirst, hx]
    · have hw : w ∈ xs := by
        cases hmem with
        | head => exact absurd rfl hx
        | tail _ h => exact h
      simp only [removeFirst, beq_iff_eq, hx, if_false, List.length_cons]
      exact Nat.succ_lt_succ (ih hw)

theorem filter_removeFirst (w : Str) :
    ∀ l : List Str,
      (removeFirst w l).filter (fun x => !(x == w)) = l.filter (fun x => !(x == w)) := by
  intro l
  induction l with
  | nil => rfl
  | cons x xs ih =>
    by_cases hx : x = w
    · simp [removeFirst, hx]
    · simp [removeFirst, hx, ih]

theorem count_removeFirst (w : Str) :
    ∀ l : List Str, w ∈ l → (removeFirst w l).count w + 1 = l.count w := by
  intro l hmem
  induction l with
  | nil => cases hmem
  | cons x xs ih =>
    by_cases hx : x = w
    · simp [removeFirst, hx, List.count_cons]
    · have hw : w ∈ xs := by
        cases hmem with
        | head => exact absurd rfl hx
        | tail _ h => exact h
      simp only [removeFirst, beq_iff_eq, hx, if_false, List.count_cons]
      have := ih hw
      omega

theorem removeLoopFuel_eq (w : Str) :
    ∀ fuel (l : List Str), l.length ≤ fuel →
      removeLoopFuel w fuel l = (l.filter (fun x => !(x == w)), l.count w) := by
  intro fuel
  induction fuel with
  | zero =>
    intro l hl
    have : l = [] := List.length_eq_zero.mp (Nat.le_zero.mp hl)
    subst this
    rfl
  | succ fuel ih =>
    intro l hl
    by_cases hmem : w ∈ l
    · have hlt := removeFirst_length_lt w l hmem
      have hle : (removeFirst w l).length ≤ fuel := by omega
      simp only [removeLoopFuel, hmem, if_true]
      rw [ih _ hle, filter_removeFirst]
      have := count_removeFirst w l hmem
      simp only [Prod.mk.injEq, true_and]
      omega
    · simp only [removeLoopFuel, hmem, if_false]
      have hfilter : l.filter (fun x => !(x == w)) = l := by
        apply List.filter_eq_self.mpr
        intro a ha
        simp only [Bool.not_eq_true', beq_eq_false_iff_ne, ne_eq]
        intro heq
        exact hmem (heq ▸ ha)
      rw [hfilter, List.count_eq_zero.mpr hmem]

theorem removeLoop_eq (w : Str) (l : List Str) :
    removeLoop w l = (l.filter (fun x => !(x == w)), l.count w) :=
  removeLoopFuel_eq w l.length l (Nat.le_refl _)

theorem replaceLoop_eq (oldW newW : Str) :
    ∀ l : List Str,
      replaceLoop oldW newW l =
        (l.map (fun x => if lowerStr x == lowerStr oldW then newW else x),
         (l.filter (fun x => lowerStr x == lowerStr oldW)).length) := by
  intro l
  induction l with
  | nil => rfl
  | cons x xs ih =>
    simp only [replaceLoop, ih]
    by_cases hx : lowerStr x = lowerStr oldW
    · simp [hx]
    · simp [hx]

theorem replaceLoop_zero_fst (oldW newW : Str) :
    ∀ l : List Str, (replaceLoop oldW newW l).2 = 0 →
      (replaceLoop oldW newW l).1 = l := by
  intro l
  induction l with
  | nil => intro _; rfl
  | cons x xs ih =>
    intro h
    by_cases hx : lowerStr x = lowerStr oldW
    · exfalso
      simp [replaceLoop, hx] at h
    · simp only [replaceLoop] at h ⊢
      simp [hx] at h ⊢
      exact ih h

theorem foldl_append_eq_flatMap {α β : Type} (f : α → List β) :
    ∀ (l : List α) (acc : List β),
      l.foldl (fun a x => a ++ f x) acc = acc ++ l.flatMap f := by
  intro l
  induction l with
  | nil => intro acc; simp
  | cons x xs ih => intro acc; simp [ih, List.append_assoc]

theorem mem_flushRun {t acc : Str} (h : t ∈ flushRun acc) :
    t = acc.reverse ∧ acc ≠ [] := by
  unfold flushRun at h
  cases acc with
  | nil => simp at h
  | cons a as =>
    simp at h
    exact ⟨by simp [h], by simp⟩

theorem tokenizeGo_shape :
    ∀ (s acc : Str), acc.all isWordChar = true → ∀ t ∈ tokenizeGo acc s,
      (t ≠ [] ∧ t.all isWordChar = true) ∨ ∃ c, isTermPunct c = true ∧ t = [c] := by
  intro s
  induction s with
  | nil =>
    intro acc hacc t ht
    simp only [tokenizeGo] at ht
    obtain ⟨hrev, hne⟩ := mem_flushRun ht
    exact Or.inl ⟨by simp [hrev, hne], by simpa [hrev] using hacc⟩
  | cons c cs ih =>
    intro acc hacc t ht
    simp only [tokenizeGo] at ht
    cases hw : isWordChar c with
    | true =>
      rw [hw] at ht
      simp only [if_true] at ht
      exact ih (c :: acc) (by simp [hacc, hw]) t ht
    | false =>
      rw [hw] at ht
      cases hp : isTermPunct c with
      | true =>
        rw [hp] at ht
        simp only [Bool.false_eq_true, if_false, if_true, List.mem_append,
          List.mem_cons] at ht
        rcases ht with hf | hc | hrest
        · obtain ⟨hrev, hne⟩ := mem_flushRun hf
          exact Or.inl ⟨by simp [hrev, hne], by simpa [hrev] using hacc⟩
        · exact Or.inr ⟨c, hp, hc⟩
        · exact ih [] rfl t hrest
      | false =>
        rw [hp] at ht
        simp only [Bool.false_eq_true, if_false, List.mem_append] at ht
        rcases ht with hf | hrest
        · obtain ⟨hrev, hne⟩ := mem_flushRun hf
          exact Or.inl ⟨by simp [hrev, hne], by simpa [hrev] using hacc⟩
        · exact ih [] rfl t hrest

theorem validate_false_iff (w : Str) :
    validate_input_string w = false ↔ w.all isPySpace = true := by
  cases w with
  | nil => simp [validate_input_string]
  | cons c cs => simp [validate_input_string]

theorem splitCommaGo_no_comma :
    ∀ (s cur : Str), (∀ c ∈ s, (c == ',') = false) →
      splitCommaGo cur s = [cur.reverse ++ s] := by
  intro s
  induction s with
  | nil => intro cur _; simp [splitCommaGo]
  | cons c cs ih =>
    intro cur h
    have hc : (c == ',') = false := h c (List.mem_cons_self c cs)
    simp only [splitCommaGo, hc, if_false]
    rw [ih (c :: cur) (fun d hd => h d (List.mem_cons_of_mem c hd))]
    simp

theorem splitComma_all_space (w : Str) (h : w.all isPySpace = true) :
    splitComma w = [w] := by
  have hnc : ∀ c ∈ w, (c == ',') = false := by
    intro c hc
    have hs : isPySpace c = true := List.all_eq_true.mp h c hc
    cases hq : (c == ',') with
    | false => rfl
    | true =>
      have hceq : c = ',' := beq_iff_eq.mp hq
      subst hceq
      exact absurd hs (by decide)
  unfold splitComma
  rw [splitCommaGo_no_comma w [] hnc]
  simp

/-! ## Claim theorems -/

/-- Claim C1 (amended): for every valid word, the extractor returns, for
each sentence with a case-insensitive whole-word match in order, the
sentence substring from `max(0, idx-R)` to `min(len, idx+len(word)+R)`
(with `idx` the first lowercase-comparison occurrence), newlines
normalized and the result trimmed; at the spec's concrete input
(sentence `The quick fox jumps.`, word `fox`, radius 5) this yields
`uick fox jump` (not `quick fox jump` as the claim stated). -/
theorem C1_context_extractor (R : Nat) (text w : Str)
    (h : validate_input_string w = true) :
    find_matching_sentences_for_word R text (some w) =
      ((splitSentences text).filter (fun s => hasWholeWordMatch s w)).map
        (fun s => specContextWindow R s w) ∧
    find_matching_sentences_for_word 5 ("The quick fox jumps.".toList)
        (some ("fox".toList))
      = [("uick fox jump".toList)] := by
  constructor
  · simp only [find_matching_sentences_for_word, h, if_true]
    simp [specContextWindow_eq_contextOf]
  · decide

/-- Claim C1 counterexample: at the claim's own input (radius 5, word
`fox`, sentence `The quick fox jumps.`) the context extractor does not
return `quick fox jump`; the slice `[max(0,10-5) : min(20,10+3+5)]` is
`uick fox jump`. -/
theorem C1_counterexample :
    ¬(find_matching_sentences_for_word 5 ("The quick fox jumps.".toList)
        (some ("fox".toList))
      = [("quick fox jump".toList)]) := by decide

/-- Witness for C1 at radius 5, word `fox`. -/
theorem C1_context_extractor_witness :
    find_matching_sentences_for_word 5 ("The quick fox jumps.".toList)
        (some ("fox".toList)) =
      ((splitSentences ("The quick fox jumps.".toList)).filter
          (fun s => hasWholeWordMatch s ("fox".toList))).map
        (fun s => specContextWindow 5 s ("fox".toList)) ∧
    find_matching_sentences_for_word 5 ("The quick fox jumps.".toList)
        (some ("fox".toList))
      = [("uick fox jump".toList)] :=
  C1_context_extractor 5 ("The quick fox jumps.".toList) ("fox".toList) (by decide)

/-- Claim C2 (code bug): when the corpus file write raises an exception
other than `FileNotFoundError`, `file_operation` swallows it and
`save_corpus` still returns the word list, so every mutation reports
success even though the save failed: `add_word` answers 201, `replace`
and `remove` answer 200, while the in-memory corpus has changed.  Only a
`FileNotFoundError` is reported as `internal_error`. -/
theorem C2_save_failure_behavior :
    (add_word [("a".toList)] (some ("x".toList)) WriteOutcome.otherError).resp
        = Resp.created ("x".toList) ∧
    (add_word [("a".toList)] (some ("x".toList)) WriteOutcome.otherError).corpus
        = [("a".toList), ("x".toList)] ∧
    (replace_word [("a".toList)] (some ("a".toList)) (some ("b".toList))
        WriteOutcome.otherError).resp
        = Resp.replacedOk 1 ("a".toList) ("b".toList) ∧
    (remove_similar_word [("a".toList)] (some ("a".toList))
        WriteOutcome.otherError).resp
        = Resp.removedOk 1 ("a".toList) ∧
    (add_word [("a".toList)] (some ("x".toList)) WriteOutcome.fileNotFound).resp
        = Resp.err ErrKind.internal_error := by
  decide

/-- Claim C3 (amended): for the similar-words, add, remove and replace
endpoints a missing, empty or whitespace-only word yields the
`invalid_input` error kind with no mutation and no save, and the
similarity lookup is never invoked (the response does not depend on
`f`); the matching-sentences endpoint instead returns a 200 response
with an empty list on such input, as does the similar-sentences
endpoint for a present but invalid parameter (`internal_error` when the
parameter is missing entirely). -/
theorem C3_invalid_input (w? : Option Str) (h : invalidWordInput w? = true) :
    (∀ f, get_similar_words f w? = Resp.err ErrKind.invalid_input) ∧
    (∀ corpus outcome, add_word corpus w? outcome
        = ⟨corpus, false, Resp.err ErrKind.invalid_input⟩) ∧
    (∀ corpus outcome, remove_similar_word corpus w? outcome
        = ⟨corpus, false, Resp.err ErrKind.invalid_input⟩) ∧
    (∀ corpus new? outcome, replace_word corpus w? new? outcome
        = ⟨corpus, false, Resp.err ErrKind.invalid_input⟩) ∧
    (∀ corpus oldW outcome, validate_input_string oldW = true →
        replace_word corpus (some oldW) w? outcome
          = ⟨corpus, false, Resp.err ErrKind.invalid_input⟩) ∧
    (∀ R text, find_matching_sentences R text w? = Resp.sentences []) ∧
    (∀ R text w, w? = some w → find_similar_sentences R text w?
        = Resp.sentences []) ∧
    (w? = none → ∀ R text, find_similar_sentences R text w?
        = Resp.err ErrKind.internal_error) := by
  cases w? with
  | none =>
    refine ⟨fun f => rfl, fun corpus outcome => rfl, fun corpus outcome => rfl,
      fun corpus new? outcome => rfl, fun corpus oldW outcome hold => rfl,
      fun R text => rfl, ?_, fun _ R text => rfl⟩
    intro R text w hw
    exact absurd hw (by simp)
  | some w =>
    have hv : validate_input_string w = false := by
      simpa [invalidWordInput] using h
    refine ⟨?_, ?_, ?_, ?_, ?_, ?_, ?_, ?_⟩
    · intro f
      simp [get_similar_words, hv]
    · intro corpus outcome
      simp [add_word, hv]
    · intro corpus outcome
      simp [remove_similar_word, hv]
    · intro corpus new? outcome
      cases new? with
      | none => rfl
      | some n => simp [replace_word, hv]
    · intro corpus oldW outcome hold
      simp [replace_word, hold, hv]
    · intro R text
      simp [find_matching_sentences, find_matching_sentences_for_word, hv]
    · intro R text w2 hw
      have hw2 : w2 = w := by
        injection hw.symm
      subst hw2
      have hsp : splitComma w2 = [w2] :=
        splitComma_all_space w2 ((validate_false_iff w2).mp hv)
      simp [find_similar_sentences, hsp, find_matching_sentences_for_word, hv]
    · intro hn
      exact absurd hn (by simp)

/-- Witness for C3 at the empty-string input. -/
theorem C3_invalid_input_witness :
    add_word [("k".toList)] (some ("".toList)) WriteOutcome.success
        = ⟨[("k".toList)], false, Resp.err ErrKind.invalid_input⟩ ∧
    find_matching_sentences 5 ("Hi there.".toList) (some ("".toList))
        = Resp.sentences [] :=
  ⟨(C3_invalid_input (some ("".toList)) (by decide)).2.1 [("k".toList)]
      WriteOutcome.success,
   (C3_invalid_input (some ("".toList)) (by decide)).2.2.2.2.2.1 5
      ("Hi there.".toList)⟩

/-- Claim C3 counterexample: the matching-sentences endpoint, given the
empty string, answers with a 200 success response carrying an empty
list, not with the `invalid_input` error kind the claim requires for
every endpoint requiring a word. -/
theorem C3_counterexample :
    find_matching_sentences 5 ("Hi there.".toList) (some ("".toList))
        = Resp.sentences [] ∧
    find_matching_sentences 5 ("Hi there.".toList) (some ("".toList))
        ≠ Resp.err ErrKind.invalid_input := by
  decide

/-- Claim C4: the remove operation deletes every occurrence of the exact
case-sensitive target word and its reported count is the number of
occurrences; with zero occurrences it answers 404 with no mutation and
no save; on corpus `[a,b,a,c]` removing `a` leaves `[b,c]` with
count 2. -/
theorem C4_remove_all (corpus : List Str) (w : Str)
    (h : validate_input_string w = true) :
    (removeLoop w corpus).1 = corpus.filter (fun x => !(x == w)) ∧
    (removeLoop w corpus).2 = corpus.count w ∧
    (corpus.count w = 0 → ∀ outcome,
      remove_similar_word corpus (some w) outcome
        = ⟨corpus, false, Resp.removeNotFound w⟩) ∧
    remove_similar_word [("a".toList), ("b".toList), ("a".toList), ("c".toList)]
        (some ("a".toList)) WriteOutcome.success
      = ⟨[("b".toList), ("c".toList)], true, Resp.removedOk 2 ("a".toList)⟩ := by
  refine ⟨by rw [removeLoop_eq], by rw [removeLoop_eq], ?_, by decide⟩
  intro hzero outcome
  simp [remove_similar_word, h, removeLoop_eq, hzero]

/-- Witness for C4 on the spec's corpus `[a,b,a,c]`. -/
theorem C4_remove_all_witness :
    (removeLoop ("a".toList)
        [("a".toList), ("b".toList), ("a".toList), ("c".toList)]).1
      = ([("a".toList), ("b".toList), ("a".toList), ("c".toList)].filter
          (fun x => !(x == ("a".toList)))) ∧
    remove_similar_word [("a".toList), ("b".toList), ("a".toList), ("c".toList)]
        (some ("a".toList)) WriteOutcome.success
      = ⟨[("b".toList), ("c".toList)], true, Resp.removedOk 2 ("a".toList)⟩ :=
  ⟨(C4_remove_all [("a".toList), ("b".toList), ("a".toList), ("c".toList)]
      ("a".toList) (by decide)).1,
   (C4_remove_all [("a".toList), ("b".toList), ("a".toList), ("c".toList)]
      ("a".toList) (by decide)).2.2.2⟩

/-- Claim C5: the replace operation replaces, in place, every token
matching the old word case-insensitively with the exact replacement, its
count is the number of such tokens, zero replacements yield the
`not_found_in_corpus` kind, and on corpus `[Cat,dog,CAT]` replacing
`cat` by `feline` yields `[feline,dog,feline]` with count 2. -/
theorem C5_replace_case_insensitive (corpus : List Str) (oldW newW : Str)
    (h1 : validate_input_string oldW = true)
    (h2 : validate_input_string newW = true) :
    (replaceLoop oldW newW corpus).1
        = corpus.map (fun x => if lowerStr x == lowerStr oldW then newW else x) ∧
    (replaceLoop oldW newW corpus).2
        = (corpus.filter (fun x => lowerStr x == lowerStr oldW)).length ∧
    ((replaceLoop oldW newW corpus).2 = 0 →
      (replace_word corpus (some oldW) (some newW) WriteOutcome.success).resp
        = Resp.err ErrKind.not_found_in_corpus) ∧
    replace_word [("Cat".toList), ("dog".toList), ("CAT".toList)]
        (some ("cat".toList)) (some ("feline".toList)) WriteOutcome.success
      = ⟨[("feline".toList), ("dog".toList), ("feline".toList)], true,
         Resp.replacedOk 2 ("cat".toList) ("feline".toList)⟩ := by
  refine ⟨by rw [replaceLoop_eq], by rw [replaceLoop_eq], ?_, by decide⟩
  intro hzero
  simp [replace_word, h1, h2, save_corpus, file_operation_write, hzero]

/-- Witness for C5 on the spec's corpus `[Cat,dog,CAT]`. -/
theorem C5_replace_case_insensitive_witness :
    (replaceLoop ("cat".toList) ("feline".toList)
        [("Cat".toList), ("dog".toList), ("CAT".toList)]).2
      = ([("Cat".toList), ("dog".toList), ("CAT".toList)].filter
          (fun x => lowerStr x == lowerStr ("cat".toList))).length ∧
    replace_word [("Cat".toList), ("dog".toList), ("CAT".toList)]
        (some ("cat".toList)) (some ("feline".toList)) WriteOutcome.success
      = ⟨[("feline".toList), ("dog".toList), ("feline".toList)], true,
         Resp.replacedOk 2 ("cat".toList) ("feline".toList)⟩ :=
  ⟨(C5_replace_case_insensitive [("Cat".toList), ("dog".toList), ("CAT".toList)]
      ("cat".toList) ("feline".toList) (by decide) (by decide)).2.1,
   (C5_replace_case_insensitive [("Cat".toList), ("dog".toList), ("CAT".toList)]
      ("cat".toList) ("feline".toList) (by decide) (by decide)).2.2.2⟩

/-- Claim C6: the segmenter splits exactly where a terminal mark is
immediately followed by whitespace, the separating whitespace belongs to
neither segment, and segments keep their order: `A cat sat. A dog ran!`
gives exactly the two sentences; a multi-space separator is consumed
whole; with no mark-plus-whitespace point there is no split. -/
theorem C6_segmenter :
    splitSentences ("A cat sat. A dog ran!".toList)
        = [("A cat sat.".toList), ("A dog ran!".toList)] ∧
    splitSentences ("Hi!  Go.".toList) = [("Hi!".toList), ("Go.".toList)] ∧
    splitSentences ("a.b c".toList) = [("a.b c".toList)] := by
  decide

/-- Claim C7: every token the tokenizer produces is either a non-empty
run of word characters or a single terminal punctuation character from
`. , ! ? ;`; on `ab, c-d!` it produces exactly
`[ab , c d !]` (maximal runs, in order, other characters discarded).
Determinism is immediate: `tokenize` is a pure function of its input. -/
theorem C7_tokenizer (s t : Str) (h : t ∈ tokenize s) :
    ((t ≠ [] ∧ t.all isWordChar = true) ∨ ∃ c, isTermPunct c = true ∧ t = [c]) ∧
    tokenize ("ab, c-d!".toList)
      = [("ab".toList), (",".toList), ("c".toList), ("d".toList), ("!".toList)] := by
  exact ⟨tokenizeGo_shape s [] rfl t h, by decide⟩

/-- Witness for C7 with the token `ab` of the input `ab, c-d!`. -/
theorem C7_tokenizer_witness :
    ((("ab".toList) ≠ [] ∧ ("ab".toList).all isWordChar = true) ∨
      ∃ c, isTermPunct c = true ∧ ("ab".toList) = [c]) ∧
    tokenize ("ab, c-d!".toList)
      = [("ab".toList), (",".toList), ("c".toList), ("d".toList), ("!".toList)] :=
  C7_tokenizer ("ab, c-d!".toList) ("ab".toList) (by decide)

/-- Claim C8: a successful add leaves the corpus equal to the old corpus
with the new word appended — so `get_corpus` shows it as last token and
every previous token unchanged in place — and no duplicate check
intervenes (the statement carries no freshness hypothesis; the witness
adds an already-present word). -/
theorem C8_add_appends (corpus : List Str) (w : Str) (outcome : WriteOutcome)
    (h : (add_word corpus (some w) outcome).resp = Resp.created w) :
    (add_word corpus (some w) outcome).corpus = corpus ++ [w] ∧
    get_corpus ((add_word corpus (some w) outcome).corpus)
        = Resp.corpusOk (corpus ++ [w]) ∧
    ((add_word corpus (some w) outcome).corpus).getLast? = some w ∧
    ((add_word corpus (some w) outcome).corpus).take corpus.length = corpus := by
  have hc : (add_word corpus (some w) outcome).corpus = corpus ++ [w] := by
    by_cases hv : validate_input_string w = true
    · cases outcome <;> simp [add_word, hv, save_corpus, file_operation_write]
    · rw [Bool.not_eq_true] at hv
      simp [add_word, hv] at h
  refine ⟨hc, by rw [hc, get_corpus], ?_, ?_⟩
  · rw [hc]
    exact List.getLast?_concat corpus
  · rw [hc]
    simp [List.take_left]

/-- Witness for C8: adding `a` to the corpus `[a]` that already holds
it. -/
theorem C8_add_appends_witness :
    (add_word [("a".toList)] (some ("a".toList)) WriteOutcome.success).corpus
        = [("a".toList)] ++ [("a".toList)] ∧
    get_corpus ((add_word [("a".toList)] (some ("a".toList))
        WriteOutcome.success).corpus)
        = Resp.corpusOk ([("a".toList)] ++ [("a".toList)]) ∧
    ((add_word [("a".toList)] (some ("a".toList))
        WriteOutcome.success).corpus).getLast? = some ("a".toList) ∧
    ((add_word [("a".toList)] (some ("a".toList))
        WriteOutcome.success).corpus).take [("a".toList)].length
        = [("a".toList)] :=
  C8_add_appends [("a".toList)] ("a".toList) WriteOutcome.success (by decide)

/-- Claim C9: the similar-sentences handler uses exactly the first three
comma-separated words, calls the per-word extractor once for each and
returns the concatenation of the per-word lists in supply order; a
fourth word changes nothing. -/
theorem C9_first_three_words (R : Nat) (text p : Str) :
    find_similar_sentences R text (some p) =
      Resp.sentences (((splitComma p).take 3).flatMap
        (fun word => find_matching_sentences_for_word R text (some word))) ∧
    find_similar_sentences 3 ("a b. c d.".toList) (some ("a,c,b,zzz".toList)) =
      find_similar_sentences 3 ("a b. c d.".toList) (some ("a,c,b".toList)) := by
  constructor
  · simp only [find_similar_sentences]
    rw [foldl_append_eq_flatMap]
    simp
  · decide

/-- Claim C10: when replace finds zero case-insensitive matches the
in-memory corpus is unchanged yet `save_corpus` is still invoked before
the `not_found_in_corpus` response, while remove with a zero count skips
the save entirely and answers 404. -/
theorem C10_zero_match_save_discrepancy (corpus : List Str)
    (oldW newW w : Str)
    (h1 : validate_input_string oldW = true)
    (h2 : validate_input_string newW = true)
    (h3 : validate_input_string w = true)
    (hz : (replaceLoop oldW newW corpus).2 = 0)
    (hw : corpus.count w = 0) :
    replace_word corpus (some oldW) (some newW) WriteOutcome.success
        = ⟨corpus, true, Resp.err ErrKind.not_found_in_corpus⟩ ∧
    remove_similar_word corpus (some w) WriteOutcome.success
        = ⟨corpus, false, Resp.removeNotFound w⟩ := by
  constructor
  · have hfst := replaceLoop_zero_fst oldW newW corpus hz
    simp [replace_word, h1, h2, save_corpus, file_operation_write, hz, hfst]
  · simp [remove_similar_word, h3, removeLoop_eq, hw]

/-- Witness for C10: replacing the absent `a` in corpus `[b]` saves and
reports not-found; removing the absent `a` skips the save. -/
theorem C10_zero_match_save_discrepancy_witness :
    replace_word [("b".toList)] (some ("a".toList)) (some ("c".toList))
        WriteOutcome.success
        = ⟨[("b".toList)], true, Resp.err ErrKind.not_found_in_corpus⟩ ∧
    remove_similar_word [("b".toList)] (some ("a".toList)) WriteOutcome.success
        = ⟨[("b".toList)], false, Resp.removeNotFound ("a".toList)⟩ :=
  C10_zero_match_save_discrepancy [("b".toList)] ("a".toList) ("c".toList)
    ("a".toList) (by decide) (by decide) (by decide) (by decide) (by decide)

end Hemingway
